import Mathlib

/-!
Shallow embedding of the ASH0-bundle demultiplexing pipeline from
`src/src/main.go` (mm1-unarchive).  Bytes are modelled as `Nat`, byte
buffers as `List Nat`.  The marker `"ASH0"` is the byte sequence
`[65, 83, 72, 48]`.  The vendor decompressor `ash0.Decompress` is an
external capability and is passed in as a parameter of type
`List Nat → Option (List Nat)` where `none` models a Go `nil` result and
`some l` models a non-nil slice with contents `l` (so `some []` is a
non-nil empty slice, which Go distinguishes from `nil`).
-/

namespace MM1Unarchive

/-- The 4-byte bundle marker `"ASH0"`. -/
def marker : List Nat := [65, 83, 72, 48]

/-- Result of evaluating the short-circuit window check
`data[i]=='A' && data[i+1]=='S' && data[i+2]=='H' && data[i+3]=='0'`
from the scan loop of `splitAsh0Bundle`: `oob` models a Go
index-out-of-range panic raised while reading one of the four cells. -/
inductive ScanCheck where
  | oob
  | hit
  | miss
deriving DecidableEq

/-- The window check at position `i`, with Go's left-to-right
short-circuit evaluation: later cells are only read when all earlier
cells matched, so an out-of-range read happens exactly when the match
is still alive at a cell past the end of the buffer. -/
def checkMarker (data : List Nat) (i : Nat) : ScanCheck :=
  match data.get? i with
  | none => ScanCheck.oob
  | some b0 =>
    if b0 = 65 then
      match data.get? (i + 1) with
      | none => ScanCheck.oob
      | some b1 =>
        if b1 = 83 then
          match data.get? (i + 2) with
          | none => ScanCheck.oob
          | some b2 =>
            if b2 = 72 then
              match data.get? (i + 3) with
              | none => ScanCheck.oob
              | some b3 => if b3 = 48 then ScanCheck.hit else ScanCheck.miss
            else ScanCheck.miss
        else ScanCheck.miss
    else ScanCheck.miss

/-- Result of `splitAsh0Bundle`: `panic` models a Go runtime panic
(index out of range), `exit1` models the `os.Exit(1)` taken when no
marker was found, `ok segs` is a normal return of the segment list. -/
inductive SplitResult where
  | panic
  | exit1
  | ok (segs : List (List Nat))
deriving DecidableEq

/-- The scan loop of `splitAsh0Bundle`.  `rem` is the number of loop
iterations left (`rem = data.length - i`), `i` the current index,
`start` the position of the previous marker (`none` models Go's `-1`),
`acc` the segments emitted so far.  On loop exit, Go appends
`data[start:]` as the final segment, after the `start == -1` check
(`println(...)` then `os.Exit(1)`). -/
def splitLoop (data : List Nat) : Nat → Nat → Option Nat → List (List Nat) → SplitResult
  | 0, _, none, _ => SplitResult.exit1
  | 0, _, some s, acc => SplitResult.ok (acc ++ [data.drop s])
  | rem + 1, i, start, acc =>
    match checkMarker data i with
    | ScanCheck.oob => SplitResult.panic
    | ScanCheck.hit =>
      match start with
      | none => splitLoop data rem (i + 1) (some i) acc
      | some s => splitLoop data rem (i + 1) (some i) (acc ++ [(data.drop s).take (i - s)])
    | ScanCheck.miss => splitLoop data rem (i + 1) start acc

/-- `splitAsh0Bundle` from `src/src/main.go`: scan the whole buffer,
cutting a segment at every marker occurrence; data before the first
marker is ignored. -/
def splitAsh0Bundle (data : List Nat) : SplitResult :=
  splitLoop data data.length 0 none []

/-- A full (in-bounds) occurrence of the marker at position `i`. -/
def MarkerAt (data : List Nat) (i : Nat) : Prop :=
  data.get? i = some 65 ∧ data.get? (i + 1) = some 83 ∧
    data.get? (i + 2) = some 72 ∧ data.get? (i + 3) = some 48

instance (data : List Nat) (i : Nat) : Decidable (MarkerAt data i) := by
  unfold MarkerAt; infer_instance

/-- The segments produced by cutting `data` at positions
`s :: ps`: one segment from each cut point up to the next, and a final
segment from the last cut point to the end of the buffer. -/
def cuts (data : List Nat) : Nat → List Nat → List (List Nat)
  | s, [] => [data.drop s]
  | s, p :: ps => (data.drop s).take (p - s) :: cuts data p ps

/-- `strings.Contains(s, "200")` on the byte level: does the buffer
contain `"200"` (`[50, 48, 48]`) as a contiguous substring? -/
def has200 : List Nat → Bool
  | 50 :: 48 :: 48 :: _ => true
  | _ :: tl => has200 tl
  | [] => false

/-- `bufio.Reader.ReadLine` on the byte buffer: `none` models the
`io.EOF` error on an empty buffer; otherwise the first line, with a
terminating `'\n'` (and a preceding `'\r'`) stripped when present. -/
def firstLine (data : List Nat) : Option (List Nat) :=
  match data with
  | [] => none
  | _ :: _ =>
    let pre := data.takeWhile (fun b => b != 10)
    if pre.length < data.length then
      some (if pre.getLast? = some 13 then pre.dropLast else pre)
    else
      some data

/-- The status check of `convertLevelData`: the first line exists and
contains `"200"`. -/
def statusOk (data : List Nat) : Bool :=
  match firstLine data with
  | none => false
  | some l => has200 l

/-- Per-record outcome of `convertLevelData`: a `nil` return
(`success`), a non-nil `error`, or whole-process termination from
inside `splitAsh0Bundle` (`procExit` for `os.Exit(1)`, `procPanic` for
an index-out-of-range panic). -/
inductive Outcome where
  | success
  | error (msg : String)
  | procExit
  | procPanic
deriving DecidableEq

/-- One tar entry written to the output archive: `tar.Header.Name`,
`tar.Header.Size` and the bytes passed to `tarWriter.Write`. -/
structure Entry where
  name : String
  size : Nat
  content : List Nat
deriving DecidableEq

/-- Observable result of one `convertLevelData` call: whether
`os.Create` ran (the output file exists), the tar entries written, and
the outcome. -/
structure ConvertOutput where
  fileCreated : Bool
  entries : List Entry
  outcome : Outcome
deriving DecidableEq

/-- The fixed entry names, in order, from `convertLevelData`. -/
def fileNames : List String :=
  ["thumbnail0.tnl", "course_data.cdt", "course_data_sub.cdt", "thumbnail1.tnl"]

/-- The entry-writing loop of `convertLevelData`: for each file name in
order, decompress the matching segment; a `nil` result aborts with
`"failed to decompress"`, otherwise a tar entry with
`Size = len(decompressed)` and the decompressed bytes is appended.
The `_ :: _, []` branch models the out-of-range panic Go would raise
indexing `splitData[i]`; it is unreachable behind the length guard. -/
def writeEntries (dec : List Nat → Option (List Nat)) :
    List String → List (List Nat) → List Entry → ConvertOutput
  | [], _, written => ⟨true, written, Outcome.success⟩
  | _ :: _, [], written => ⟨true, written, Outcome.procPanic⟩
  | name :: names, seg :: segs, written =>
    match dec seg with
    | none => ⟨true, written, Outcome.error "failed to decompress"⟩
    | some d => writeEntries dec names segs (written ++ [⟨name, d.length, d⟩])

/-- `convertLevelData` from `src/src/main.go`: read the first line of
the raw record data; if it lacks `"200"`, return `nil` with no side
effects; otherwise create the output file, split the (whole) buffer
into ASH0 segments, require exactly 4 of them, and write one tar entry
per segment through the vendor decompressor `dec`. -/
def convertLevelData (dec : List Nat → Option (List Nat)) (id : String)
    (data : List Nat) : ConvertOutput :=
  match firstLine data with
  | none => ⟨false, [], Outcome.error "ReadLine"⟩
  | some status =>
    if has200 status then
      match splitAsh0Bundle data with
      | SplitResult.panic => ⟨true, [], Outcome.procPanic⟩
      | SplitResult.exit1 => ⟨true, [], Outcome.procExit⟩
      | SplitResult.ok segs =>
        if segs.length = fileNames.length then
          writeEntries dec fileNames segs []
        else
          ⟨true, [], Outcome.error "failed to split data"⟩
    else
      ⟨false, [], Outcome.success⟩

/-- One WARC record as `extract_file` sees it: the `WARC-Type` header,
the output base name already derived from the target URI's last path
segment, and the raw content bytes. -/
structure WarcRecord where
  warcType : String
  fileName : String
  content : List Nat
deriving DecidableEq

/-- The record loop of `extract_file`: records whose type is not
`"response"` are skipped; for the rest, `convertLevelData` runs and a
non-`nil` error is passed to `log.Fatal`, which halts the whole run
(as does a panic or `os.Exit` from inside the call).  Returns the
per-record results gathered before the run ended and whether the run
was halted prematurely. -/
def runPipeline (dec : List Nat → Option (List Nat)) :
    List WarcRecord → List (String × ConvertOutput) × Bool
  | [] => ([], false)
  | r :: rs =>
    if r.warcType ≠ "response" then runPipeline dec rs
    else
      let out := convertLevelData dec r.fileName r.content
      match out.outcome with
      | Outcome.success =>
        let rest := runPipeline dec rs
        ((r.fileName, out) :: rest.1, rest.2)
      | _ => ([(r.fileName, out)], true)

/-- The identity decompressor, a simple concrete instantiation of the
external `ash0.Decompress` capability used in concrete instances. -/
def decId : List Nat → Option (List Nat) := fun l => some l

/-- A well-formed record body: a `"200"` status line followed by four
marker-led segments. -/
def D1 : List Nat :=
  [50, 48, 48, 10] ++ marker ++ [1] ++ marker ++ [2] ++ marker ++ [3] ++ marker ++ [4]

/-- The four segments `splitAsh0Bundle` produces from `D1`. -/
def S1 : List (List Nat) :=
  [[65, 83, 72, 48, 1], [65, 83, 72, 48, 2], [65, 83, 72, 48, 3], [65, 83, 72, 48, 4]]

/-- A record body whose payload holds five marker occurrences. -/
def D5 : List Nat :=
  [50, 48, 48, 10] ++ marker ++ [1] ++ marker ++ [2] ++ marker ++ [3] ++ marker ++ [4]
    ++ marker ++ [5]

/-- A record body whose payload holds three marker occurrences. -/
def D3 : List Nat :=
  [50, 48, 48, 10] ++ marker ++ [1] ++ marker ++ [2] ++ marker ++ [3]

/-! ### Basic facts about marker occurrences -/

theorem markerAt_bound {data : List Nat} {i : Nat} (h : MarkerAt data i) :
    i + 4 ≤ data.length := by
  obtain ⟨-, -, -, h3⟩ := h
  rcases List.get?_eq_some.mp h3 with ⟨hl, -⟩
  omega

theorem hit_iff {data : List Nat} {i : Nat} :
    checkMarker data i = ScanCheck.hit ↔ MarkerAt data i := by
  unfold checkMarker MarkerAt
  rcases h0 : data.get? i with - | b0 <;>
    rcases h1 : data.get? (i + 1) with - | b1 <;>
      rcases h2 : data.get? (i + 2) with - | b2 <;>
        rcases h3 : data.get? (i + 3) with - | b3 <;>
          simp_all <;> split_ifs <;> simp_all

theorem not_markerAt_of_miss {data : List Nat} {i : Nat}
    (h : checkMarker data i = ScanCheck.miss) : ¬ MarkerAt data i := by
  intro hm
  rw [hit_iff.mpr hm] at h
  exact absurd h (by simp)

theorem markerAt_gap {data : List Nat} {i j : Nat} (hi : MarkerAt data i)
    (hj : MarkerAt data j) (hlt : i < j) : i + 4 ≤ j := by
  rcases (show j = i + 1 ∨ j = i + 2 ∨ j = i + 3 ∨ i + 4 ≤ j by omega) with h | h | h | h
  · subst h; exact absurd hj.1 (by rw [hi.2.1]; simp)
  · subst h; exact absurd hj.1 (by rw [hi.2.2.1]; simp)
  · subst h; exact absurd hj.1 (by rw [hi.2.2.2]; simp)
  · exact h

theorem take_four {l : List Nat} (h0 : l.get? 0 = some 65) (h1 : l.get? 1 = some 83)
    (h2 : l.get? 2 = some 72) (h3 : l.get? 3 = some 48) : l.take 4 = marker := by
  match l with
  | [] => simp at h0
  | [a] => simp at h1
  | [a, b] => simp at h2
  | [a, b, c] => simp at h3
  | a :: b :: c :: d :: t =>
    simp [List.get?] at h0 h1 h2 h3
    simp [marker, h0, h1, h2, h3, List.take]

theorem markerAt_take {data : List Nat} {i : Nat} (h : MarkerAt data i) :
    (data.drop i).take 4 = marker := by
  refine take_four ?_ ?_ ?_ ?_ <;> rw [List.get?_drop]
  · simpa using h.1
  · exact h.2.1
  · exact h.2.2.1
  · exact h.2.2.2

theorem take_drop_cover {data : List Nat} {s p : Nat} (h : s ≤ p) :
    (data.drop s).take (p - s) ++ data.drop p = data.drop s := by
  have h2 := List.take_append_drop (p - s) (data.drop s)
  rw [List.drop_drop] at h2
  rwa [show s + (p - s) = p by omega] at h2

/-! ### Facts about the entry-writing loop -/

theorem writeEntries_success (dec : List Nat → Option (List Nat)) :
    ∀ (names : List String) (segs : List (List Nat)) (w : List Entry),
      names.length = segs.length →
      (writeEntries dec names segs w).outcome = Outcome.success →
      ∃ ds : List (List Nat), ds.length = segs.length ∧
        (∀ i, i < segs.length → dec (segs.getD i []) = some (ds.getD i [])) ∧
        (writeEntries dec names segs w).entries =
          w ++ List.zipWith (fun n d => Entry.mk n d.length d) names ds := by
  intro names
  induction names with
  | nil =>
    intro segs w hlen hout
    cases segs with
    | nil => exact ⟨[], rfl, by simp, by simp [writeEntries]⟩
    | cons s ss => simp at hlen
  | cons n ns ih =>
    intro segs w hlen hout
    cases segs with
    | nil => simp at hlen
    | cons s ss =>
      rcases hdec : dec s with - | d
      · simp only [writeEntries, hdec] at hout
        exact absurd hout (by simp)
      · simp only [writeEntries, hdec] at hout
        obtain ⟨ds, hdsl, hdsi, hent⟩ :=
          ih ss (w ++ [⟨n, d.length, d⟩]) (by simpa using hlen) hout
        refine ⟨d :: ds, by simp [hdsl], ?_, ?_⟩
        · intro i hi
          cases i with
          | zero => simpa using hdec
          | succ j =>
            have hj := hdsi j (by simpa using hi)
            simpa using hj
        · simp only [writeEntries, hdec]
          rw [hent]
          simp

theorem writeEntries_fail (dec : List Nat → Option (List Nat)) :
    ∀ (names : List String) (segs : List (List Nat)) (w : List Entry) (i : Nat),
      names.length = segs.length → i < segs.length →
      (∀ j, j < i → dec (segs.getD j []) ≠ none) →
      dec (segs.getD i []) = none →
      (writeEntries dec names segs w).outcome = Outcome.error "failed to decompress" ∧
        (writeEntries dec names segs w).entries.length = w.length + i := by
  intro names
  induction names with
  | nil =>
    intro segs w i hlen hi _ _
    cases segs with
    | nil => simp at hi
    | cons s ss => simp at hlen
  | cons n ns ih =>
    intro segs w i hlen hi hbef hfail
    cases segs with
    | nil => simp at hi
    | cons s ss =>
      cases i with
      | zero =>
        have hs : dec s = none := by simpa using hfail
        simp [writeEntries, hs]
      | succ j =>
        have hs : dec s ≠ none := by
          have h0 := hbef 0 (by omega)
          simpa using h0
        rcases hdec : dec s with - | d
        · exact absurd hdec hs
        · have hrec := ih ss (w ++ [⟨n, d.length, d⟩]) j (by simpa using hlen)
            (by simpa using hi)
            (fun k hk => by
              have hb := hbef (k + 1) (by omega)
              simpa using hb)
            (by simpa using hfail)
          simp only [writeEntries, hdec]
          refine ⟨hrec.1, ?_⟩
          rw [hrec.2]
          simp
          omega

/-! ### Unfolding helpers for `convertLevelData` -/

theorem statusOk_iff {data : List Nat} :
    statusOk data = true ↔ ∃ l, firstLine data = some l ∧ has200 l = true := by
  unfold statusOk
  rcases h : firstLine data with - | l <;> simp [h]

/-! ### Characterization of the scan loop -/

theorem splitLoop_some (data : List Nat) :
    ∀ (rem i s : Nat) (acc : List (List Nat)) (P : List Nat),
      i + rem = data.length →
      (∀ j, i ≤ j → j < data.length → checkMarker data j ≠ ScanCheck.oob) →
      (∀ j, i ≤ j → (MarkerAt data j ↔ j ∈ P)) →
      P.Pairwise (· < ·) →
      (∀ j ∈ P, i ≤ j) →
      splitLoop data rem i (some s) acc = SplitResult.ok (acc ++ cuts data s P) := by
  intro rem
  induction rem with
  | zero =>
    intro i s acc P hrem hsafe hiff hsort hlb
    have hP : P = [] := by
      rcases P with - | ⟨p, ps⟩
      · rfl
      · exfalso
        have hp : MarkerAt data p := (hiff p (hlb p (by simp))).mpr (by simp)
        have hb := markerAt_bound hp
        have hl := hlb p (by simp)
        omega
    subst hP
    simp [splitLoop, cuts]
  | succ rem ih =>
    intro i s acc P hrem hsafe hiff hsort hlb
    have hilt : i < data.length := by omega
    rcases hcm : checkMarker data i with - | - | -
    · exact absurd hcm (hsafe i le_rfl hilt)
    · have hmi : MarkerAt data i := hit_iff.mp hcm
      have hiP : i ∈ P := (hiff i le_rfl).mp hmi
      rcases P with - | ⟨q, qs⟩
      · simp at hiP
      · have hq : q = i := by
          rcases List.mem_cons.mp hiP with h | h
          · omega
          · have h1 := hlb q (by simp)
            have h2 := (List.pairwise_cons.mp hsort).1 i h
            omega
        subst hq
        simp only [splitLoop, hcm]
        rw [ih (q + 1) q (acc ++ [(data.drop s).take (q - s)]) qs (by omega)
          (fun j hj hl => hsafe j (by omega) hl)
          (fun j hj => by
            rw [hiff j (by omega)]
            simp only [List.mem_cons]
            constructor
            · rintro (h | h)
              · omega
              · exact h
            · intro h; exact Or.inr h)
          (List.pairwise_cons.mp hsort).2
          (fun j hj => by
            have := (List.pairwise_cons.mp hsort).1 j hj
            omega)]
        simp [cuts]
    · have hnm : ¬ MarkerAt data i := not_markerAt_of_miss hcm
      have hiP : i ∉ P := fun h => hnm ((hiff i le_rfl).mpr h)
      simp only [splitLoop, hcm]
      exact ih (i + 1) s acc P (by omega)
        (fun j hj hl => hsafe j (by omega) hl)
        (fun j hj => hiff j (by omega)) hsort
        (fun j hj => by
          have h1 := hlb j hj
          have h2 : j ≠ i := fun he => hiP (he ▸ hj)
          omega)

theorem splitLoop_none (data : List Nat) :
    ∀ (rem i : Nat) (acc : List (List Nat)) (P : List Nat),
      i + rem = data.length →
      (∀ j, i ≤ j → j < data.length → checkMarker data j ≠ ScanCheck.oob) →
      (∀ j, i ≤ j → (MarkerAt data j ↔ j ∈ P)) →
      P.Pairwise (· < ·) →
      (∀ j ∈ P, i ≤ j) →
      splitLoop data rem i none acc =
        (match P with
          | [] => SplitResult.exit1
          | p :: ps => SplitResult.ok (acc ++ cuts data p ps)) := by
  intro rem
  induction rem with
  | zero =>
    intro i acc P hrem hsafe hiff hsort hlb
    have hP : P = [] := by
      rcases P with - | ⟨p, ps⟩
      · rfl
      · exfalso
        have hp : MarkerAt data p := (hiff p (hlb p (by simp))).mpr (by simp)
        have hb := markerAt_bound hp
        have hl := hlb p (by simp)
        omega
    subst hP
    simp [splitLoop]
  | succ rem ih =>
    intro i acc P hrem hsafe hiff hsort hlb
    have hilt : i < data.length := by omega
    rcases hcm : checkMarker data i with - | - | -
    · exact absurd hcm (hsafe i le_rfl hilt)
    · have hmi : MarkerAt data i := hit_iff.mp hcm
      have hiP : i ∈ P := (hiff i le_rfl).mp hmi
      rcases P with - | ⟨q, qs⟩
      · simp at hiP
      · have hq : q = i := by
          rcases List.mem_cons.mp hiP with h | h
          · omega
          · have h1 := hlb q (by simp)
            have h2 := (List.pairwise_cons.mp hsort).1 i h
            omega
        subst hq
        simp only [splitLoop, hcm]
        exact splitLoop_some data rem (q + 1) q acc qs (by omega)
          (fun j hj hl => hsafe j (by omega) hl)
          (fun j hj => by
            rw [hiff j (by omega)]
            simp only [List.mem_cons]
            constructor
            · rintro (h | h)
              · omega
              · exact h
            · intro h; exact Or.inr h)
          (List.pairwise_cons.mp hsort).2
          (fun j hj => by
            have := (List.pairwise_cons.mp hsort).1 j hj
            omega)
    · have hnm : ¬ MarkerAt data i := not_markerAt_of_miss hcm
      have hiP : i ∉ P := fun h => hnm ((hiff i le_rfl).mpr h)
      simp only [splitLoop, hcm]
      exact ih (i + 1) acc P (by omega)
        (fun j hj hl => hsafe j (by omega) hl)
        (fun j hj => hiff j (by omega)) hsort
        (fun j hj => by
          have h1 := hlb j hj
          have h2 : j ≠ i := fun he => hiP (he ▸ hj)
          omega)

theorem split_characterization (data : List Nat) (P : List Nat)
    (hsafe : ∀ i, i < data.length → checkMarker data i ≠ ScanCheck.oob)
    (hiff : ∀ j, MarkerAt data j ↔ j ∈ P)
    (hsort : P.Pairwise (· < ·)) :
    splitAsh0Bundle data =
      (match P with
        | [] => SplitResult.exit1
        | p :: ps => SplitResult.ok (cuts data p ps)) := by
  have h := splitLoop_none data data.length 0 [] P (by omega)
    (fun j _ hl => hsafe j hl) (fun j _ => hiff j) hsort (fun j _ => Nat.zero_le j)
  rw [splitAsh0Bundle, h]
  cases P <;> simp

theorem splitLoop_no_marker (data : List Nat)
    (h : ∀ j, ¬ MarkerAt data j) :
    ∀ (rem i : Nat) (acc : List (List Nat)),
      splitLoop data rem i none acc = SplitResult.exit1 ∨
        splitLoop data rem i none acc = SplitResult.panic := by
  intro rem
  induction rem with
  | zero => intro i acc; left; simp [splitLoop]
  | succ rem ih =>
    intro i acc
    rcases hcm : checkMarker data i with - | - | -
    · right; simp [splitLoop, hcm]
    · exact absurd (hit_iff.mp hcm) (h i)
    · simpa [splitLoop, hcm] using ih (i + 1) acc

/-! ### Facts about the cut segments -/

theorem cuts_join (data : List Nat) :
    ∀ (ps : List Nat) (s : Nat), (s :: ps).Pairwise (· ≤ ·) →
      (cuts data s ps).flatten = data.drop s := by
  intro ps
  induction ps with
  | nil => intro s _; simp [cuts]
  | cons p tl ih =>
    intro s hp
    have hsp : s ≤ p := (List.pairwise_cons.mp hp).1 p (by simp)
    have htl : (p :: tl).Pairwise (· ≤ ·) := (List.pairwise_cons.mp hp).2
    simp only [cuts, List.flatten_cons]
    rw [ih p htl, take_drop_cover hsp]

theorem cuts_marker (data : List Nat) :
    ∀ (ps : List Nat) (s : Nat), MarkerAt data s →
      (∀ q ∈ ps, MarkerAt data q) → (s :: ps).Pairwise (· < ·) →
      ∀ seg ∈ cuts data s ps, seg.take 4 = marker := by
  intro ps
  induction ps with
  | nil =>
    intro s hs _ _ seg hseg
    simp only [cuts, List.mem_singleton] at hseg
    subst hseg
    exact markerAt_take hs
  | cons p tl ih =>
    intro s hs hmem hp seg hseg
    have hsp : s < p := (List.pairwise_cons.mp hp).1 p (by simp)
    have hgap : s + 4 ≤ p := markerAt_gap hs (hmem p (by simp)) hsp
    simp only [cuts, List.mem_cons] at hseg
    rcases hseg with hseg | hseg
    · subst hseg
      rw [List.take_take, show min 4 (p - s) = 4 by omega]
      exact markerAt_take hs
    · exact ih p (hmem p (by simp)) (fun q hq => hmem q (by simp [hq]))
        (List.pairwise_cons.mp hp).2 seg hseg

/-! ### Marker occurrences in block-structured buffers -/

theorem noMarkerAll {l : List Nat} (h : ∀ i, i < l.length → ¬ MarkerAt l i) :
    ∀ i, ¬ MarkerAt l i := by
  intro i hm
  have hb := markerAt_bound hm
  exact h i (by omega) hm

theorem markerAt_front (T : List Nat) : MarkerAt (marker ++ T) 0 := by
  simp [MarkerAt, marker]

theorem markerAt_shift (A B : List Nat) (k : Nat) :
    MarkerAt (A ++ B) (A.length + k) ↔ MarkerAt B k := by
  have e0 : (A ++ B).get? (A.length + k) = B.get? k := by
    rw [List.get?_append_right (by omega)]
    congr 1
    omega
  have e1 : (A ++ B).get? (A.length + k + 1) = B.get? (k + 1) := by
    rw [List.get?_append_right (by omega)]
    congr 1
    omega
  have e2 : (A ++ B).get? (A.length + k + 2) = B.get? (k + 2) := by
    rw [List.get?_append_right (by omega)]
    congr 1
    omega
  have e3 : (A ++ B).get? (A.length + k + 3) = B.get? (k + 3) := by
    rw [List.get?_append_right (by omega)]
    congr 1
    omega
  unfold MarkerAt
  rw [e0, e1, e2, e3]

theorem markerAt_inner {X rest : List Nat} {i : Nat} (h : MarkerAt (X ++ rest) i)
    (hb : i + 4 ≤ X.length) : MarkerAt X i := by
  obtain ⟨h0, h1, h2, h3⟩ := h
  rw [List.get?_append (by omega : i < X.length)] at h0
  rw [List.get?_append (by omega : i + 1 < X.length)] at h1
  rw [List.get?_append (by omega : i + 2 < X.length)] at h2
  rw [List.get?_append (by omega : i + 3 < X.length)] at h3
  exact ⟨h0, h1, h2, h3⟩

theorem markerAt_block_start (A T : List Nat) (k : Nat) (hk : A.length = k) :
    MarkerAt (A ++ (marker ++ T)) k := by
  subst hk
  have h := markerAt_shift A (marker ++ T) 0
  rw [Nat.add_zero] at h
  exact h.mpr (markerAt_front T)

theorem noMid (X rest : List Nat) (hX : ∀ i, ¬ MarkerAt X i)
    (hrest : rest.get? 0 = some 65 ∨ rest = []) :
    ∀ j, 0 < j → j < 4 + X.length → ¬ MarkerAt (marker ++ (X ++ rest)) j := by
  intro j hj1 hj2 hM
  have hx0 : (marker ++ (X ++ rest)).get? (4 + X.length) = rest.get? 0 := by
    rw [List.get?_append_right (by simp [marker])]
    rw [show 4 + X.length - marker.length = X.length by simp [marker]]
    rw [List.get?_append_right le_rfl]
    simp
  rcases (show j = 1 ∨ j = 2 ∨ j = 3 ∨ (4 ≤ j ∧ j + 4 ≤ 4 + X.length) ∨
      (4 ≤ j ∧ 4 + X.length < j + 4) by omega) with h | h | h | ⟨h4, hin⟩ | ⟨h4, hout⟩
  · subst h
    have h1 := hM.1
    simp [marker] at h1
  · subst h
    have h1 := hM.1
    simp [marker] at h1
  · subst h
    have h1 := hM.1
    simp [marker] at h1
  · have hsh := markerAt_shift marker (X ++ rest) (j - 4)
    rw [show marker.length + (j - 4) = j by simp [marker]; omega] at hsh
    exact hX (j - 4) (markerAt_inner (hsh.mp hM) (by omega))
  · rcases (show j + 1 = 4 + X.length ∨ j + 2 = 4 + X.length ∨ j + 3 = 4 + X.length
        by omega) with h | h | h
    · have hb := hM.2.1
      rw [h, hx0] at hb
      rcases hrest with hr | hr
      · rw [hr] at hb; simp at hb
      · subst hr; simp at hb
    · have hb := hM.2.2.1
      rw [h, hx0] at hb
      rcases hrest with hr | hr
      · rw [hr] at hb; simp at hb
      · subst hr; simp at hb
    · have hb := hM.2.2.2
      rw [h, hx0] at hb
      rcases hrest with hr | hr
      · rw [hr] at hb; simp at hb
      · subst hr; simp at hb

theorem block_step (T rest : List Nat) (k : Nat)
    (hT : ∀ i, ¬ MarkerAt T i)
    (hrest : rest.get? 0 = some 65 ∨ rest = [])
    (hk : MarkerAt (marker ++ (T ++ rest)) k) :
    k = 0 ∨ (4 + T.length ≤ k ∧ MarkerAt rest (k - (4 + T.length))) := by
  rcases Nat.eq_zero_or_pos k with h0 | hpos
  · exact Or.inl h0
  by_cases hlt : k < 4 + T.length
  · exact absurd hk (noMid T rest hT hrest k hpos hlt)
  · right
    refine ⟨by omega, ?_⟩
    have hassoc : marker ++ (T ++ rest) = (marker ++ T) ++ rest := by
      simp [List.append_assoc]
    rw [hassoc] at hk
    have hsh := markerAt_shift (marker ++ T) rest (k - (4 + T.length))
    rw [show (marker ++ T).length + (k - (4 + T.length)) = k by
      simp [marker]; omega] at hsh
    exact hsh.mp hk

/-! ### Claim theorems -/

/-- Claim C1: on a record that `convertLevelData` finishes with a `nil`
error after writing an output archive, that archive holds exactly 4
entries named `thumbnail0.tnl`, `course_data.cdt`, `course_data_sub.cdt`,
`thumbnail1.tnl` in that order, and the `i`-th entry's size is the length
of the `i`-th decoded segment and its content is that decoded segment. -/
theorem convert_success_archive_entries
    (dec : List Nat → Option (List Nat)) (id : String) (data : List Nat)
    (segs : List (List Nat))
    (hsplit : splitAsh0Bundle data = SplitResult.ok segs)
    (hsucc : (convertLevelData dec id data).outcome = Outcome.success)
    (hfile : (convertLevelData dec id data).fileCreated = true) :
    segs.length = 4 ∧
    (convertLevelData dec id data).entries.map Entry.name =
      ["thumbnail0.tnl", "course_data.cdt", "course_data_sub.cdt", "thumbnail1.tnl"] ∧
    ∀ i, i < 4 → ∃ d, dec (segs.getD i []) = some d ∧
      ((convertLevelData dec id data).entries.getD i ⟨"", 0, []⟩).size = d.length ∧
      ((convertLevelData dec id data).entries.getD i ⟨"", 0, []⟩).content = d := by
  rcases hline : firstLine data with - | status
  · rw [convertLevelData, hline] at hsucc
    exact absurd hsucc (by simp)
  · rcases h200 : has200 status with - | -
    · rw [convertLevelData, hline] at hfile
      simp only [h200, if_neg Bool.false_ne_true] at hfile
      exact absurd hfile (by simp)
    · by_cases hlen : segs.length = fileNames.length
      · have hC : convertLevelData dec id data = writeEntries dec fileNames segs [] := by
          rw [convertLevelData, hline]
          simp [h200, hsplit, hlen]
        rw [hC] at hsucc ⊢
        obtain ⟨ds, hdsl, hdsi, hent⟩ :=
          writeEntries_success dec fileNames segs [] (by rw [hlen]) hsucc
        have hlen4 : segs.length = 4 := by simpa [fileNames] using hlen
        have hds4 : ds.length = 4 := by rw [hdsl, hlen4]
        rcases ds with - | ⟨d0, - | ⟨d1, - | ⟨d2, - | ⟨d3, - | ⟨d4, tl⟩⟩⟩⟩⟩ <;>
          simp at hds4
        refine ⟨hlen4, ?_, ?_⟩
        · rw [hent]; simp [fileNames]
        · intro i hi
          have hd : ∀ j, j < 4 → dec (segs.getD j []) = some ([d0, d1, d2, d3].getD j []) :=
            fun j hj => hdsi j (by omega)
          rcases (show i = 0 ∨ i = 1 ∨ i = 2 ∨ i = 3 by omega) with h | h | h | h <;> subst h
          · exact ⟨d0, by simpa using hd 0 (by omega), by rw [hent]; simp [fileNames],
              by rw [hent]; simp [fileNames]⟩
          · exact ⟨d1, by simpa using hd 1 (by omega), by rw [hent]; simp [fileNames],
              by rw [hent]; simp [fileNames]⟩
          · exact ⟨d2, by simpa using hd 2 (by omega), by rw [hent]; simp [fileNames],
              by rw [hent]; simp [fileNames]⟩
          · exact ⟨d3, by simpa using hd 3 (by omega), by rw [hent]; simp [fileNames],
              by rw [hent]; simp [fileNames]⟩
      · have hC : convertLevelData dec id data =
            ⟨true, [], Outcome.error "failed to split data"⟩ := by
          rw [convertLevelData, hline]
          simp [h200, hsplit, hlen]
        rw [hC] at hsucc
        exact absurd hsucc (by simp)

/-- Claim C1, instance: a concrete successful record with the identity
decompressor, exercising `convert_success_archive_entries`. -/
theorem convert_success_archive_entries_inst :
    splitAsh0Bundle D1 = SplitResult.ok S1 ∧
    (convertLevelData decId "w" D1).outcome = Outcome.success ∧
    (convertLevelData decId "w" D1).fileCreated = true ∧
    (S1.length = 4 ∧
      (convertLevelData decId "w" D1).entries.map Entry.name =
        ["thumbnail0.tnl", "course_data.cdt", "course_data_sub.cdt", "thumbnail1.tnl"] ∧
      ∀ i, i < 4 → ∃ d, decId (S1.getD i []) = some d ∧
        ((convertLevelData decId "w" D1).entries.getD i ⟨"", 0, []⟩).size = d.length ∧
        ((convertLevelData decId "w" D1).entries.getD i ⟨"", 0, []⟩).content = d) :=
  ⟨by decide, by decide, by decide,
    convert_success_archive_entries decId "w" D1 S1 (by decide) (by decide) (by decide)⟩

/-- Claim C3 (code bug): on the buffer `"A"` the scan's window check at
position 0 reads past the end of the buffer and the program crashes
with an index-out-of-range panic, contradicting the required bounds
safety of the marker scan. -/
theorem scan_tail_out_of_bounds :
    checkMarker [65] 0 = ScanCheck.oob ∧ splitAsh0Bundle [65] = SplitResult.panic := by
  decide

/-- Claim C5 (counterexample): a record whose payload splits into 5
segments makes the whole run halt (`log.Fatal`); the following healthy
record is never processed, refuting "continues processing with the next
record". -/
theorem pipeline_halts_on_bad_count_cex :
    runPipeline decId [⟨"response", "bad", D5⟩, ⟨"response", "good", D1⟩] =
      ([("bad", ⟨true, [], Outcome.error "failed to split data"⟩)], true) := by
  decide

/-- Claim C5 (amended): a payload splitting into a segment count other
than 4 makes `convertLevelData` return the record-scoped error
`"failed to split data"`, but the orchestrator then halts the whole run
via `log.Fatal` instead of continuing with later records. -/
theorem convert_bad_count_error_halts_run
    (dec : List Nat → Option (List Nat)) (name : String) (data : List Nat)
    (segs : List (List Nat)) (rs : List WarcRecord)
    (hstatus : statusOk data = true)
    (hsplit : splitAsh0Bundle data = SplitResult.ok segs)
    (hcount : segs.length ≠ 4) :
    (convertLevelData dec name data).outcome = Outcome.error "failed to split data" ∧
    runPipeline dec (⟨"response", name, data⟩ :: rs) =
      ([(name, convertLevelData dec name data)], true) := by
  obtain ⟨l, hline, h200⟩ := statusOk_iff.mp hstatus
  have hne : segs.length ≠ fileNames.length := by simpa [fileNames] using hcount
  have hC : convertLevelData dec name data =
      ⟨true, [], Outcome.error "failed to split data"⟩ := by
    rw [convertLevelData, hline]
    simp [h200, hsplit, hne]
  refine ⟨by rw [hC], ?_⟩
  simp [runPipeline, hC]

/-- Claim C5 (amended), instance: `convert_bad_count_error_halts_run`
applied to the concrete 5-segment record `D5`. -/
theorem convert_bad_count_error_halts_run_inst :
    statusOk D5 = true ∧
    splitAsh0Bundle D5 = SplitResult.ok (S1 ++ [[65, 83, 72, 48, 5]]) ∧
    (S1 ++ [[65, 83, 72, 48, 5]]).length ≠ 4 ∧
    ((convertLevelData decId "bad" D5).outcome = Outcome.error "failed to split data" ∧
      runPipeline decId [⟨"response", "bad", D5⟩] =
        ([("bad", convertLevelData decId "bad" D5)], true)) :=
  ⟨by decide, by decide, by decide,
    convert_bad_count_error_halts_run decId "bad" D5 (S1 ++ [[65, 83, 72, 48, 5]]) []
      (by decide) (by decide) (by decide)⟩

/-- Claim C6: a payload that splits into exactly 3 or exactly 5 segments
is rejected by `convertLevelData` with the record-scoped format error
`"failed to split data"`; the record is not reported as success (the
output file, created before splitting, is left behind but no entries are
written). -/
theorem convert_rejects_three_or_five
    (dec : List Nat → Option (List Nat)) (id : String) (data : List Nat)
    (segs : List (List Nat))
    (hstatus : statusOk data = true)
    (hsplit : splitAsh0Bundle data = SplitResult.ok segs)
    (hcount : segs.length = 3 ∨ segs.length = 5) :
    (convertLevelData dec id data).outcome = Outcome.error "failed to split data" ∧
    (convertLevelData dec id data).outcome ≠ Outcome.success ∧
    (convertLevelData dec id data).entries = [] := by
  obtain ⟨l, hline, h200⟩ := statusOk_iff.mp hstatus
  have hne : segs.length ≠ fileNames.length := by
    rcases hcount with h | h <;> simp [fileNames, h]
  have hC : convertLevelData dec id data =
      ⟨true, [], Outcome.error "failed to split data"⟩ := by
    rw [convertLevelData, hline]
    simp [h200, hsplit, hne]
  rw [hC]
  exact ⟨rfl, by simp, rfl⟩

/-- Claim C6, instance: `convert_rejects_three_or_five` applied to the
concrete 3-segment record `D3`. -/
theorem convert_rejects_three_or_five_inst :
    statusOk D3 = true ∧
    splitAsh0Bundle D3 =
      SplitResult.ok [[65, 83, 72, 48, 1], [65, 83, 72, 48, 2], [65, 83, 72, 48, 3]] ∧
    (([[65, 83, 72, 48, 1], [65, 83, 72, 48, 2], [65, 83, 72, 48, 3]] :
        List (List Nat)).length = 3 ∨
      ([[65, 83, 72, 48, 1], [65, 83, 72, 48, 2], [65, 83, 72, 48, 3]] :
        List (List Nat)).length = 5) ∧
    ((convertLevelData decId "t" D3).outcome = Outcome.error "failed to split data" ∧
      (convertLevelData decId "t" D3).outcome ≠ Outcome.success ∧
      (convertLevelData decId "t" D3).entries = []) :=
  ⟨by decide, by decide, Or.inl (by decide),
    convert_rejects_three_or_five decId "t" D3
      [[65, 83, 72, 48, 1], [65, 83, 72, 48, 2], [65, 83, 72, 48, 3]]
      (by decide) (by decide) (Or.inl (by decide))⟩

/-- Claim C7 (counterexample): a decompressor returning a non-nil empty
slice is accepted: the record succeeds and four empty entries are
written, refuting "a decoded segment accepted by the pipeline is always
non-empty". -/
theorem convert_accepts_empty_decode_cex :
    (convertLevelData (fun _ => some []) "x" D1).outcome = Outcome.success ∧
    (convertLevelData (fun _ => some []) "x" D1).entries =
      [⟨"thumbnail0.tnl", 0, []⟩, ⟨"course_data.cdt", 0, []⟩,
        ⟨"course_data_sub.cdt", 0, []⟩, ⟨"thumbnail1.tnl", 0, []⟩] := by
  decide

/-- Claim C7 (amended): when the vendor decompressor returns the `nil`
failure signal on the first segment it is applied to, the record fails
with `"failed to decompress"` and exactly the entries before that
segment were written; a non-nil result is accepted even when empty. -/
theorem convert_nil_decode_fails
    (dec : List Nat → Option (List Nat)) (id : String) (data : List Nat)
    (segs : List (List Nat)) (i : Nat)
    (hstatus : statusOk data = true)
    (hsplit : splitAsh0Bundle data = SplitResult.ok segs)
    (hlen : segs.length = 4)
    (hi : i < 4)
    (hbefore : ∀ j, j < i → dec (segs.getD j []) ≠ none)
    (hfail : dec (segs.getD i []) = none) :
    (convertLevelData dec id data).outcome = Outcome.error "failed to decompress" ∧
    (convertLevelData dec id data).entries.length = i := by
  obtain ⟨l, hline, h200⟩ := statusOk_iff.mp hstatus
  have heq : segs.length = fileNames.length := by simp [fileNames, hlen]
  have hC : convertLevelData dec id data = writeEntries dec fileNames segs [] := by
    rw [convertLevelData, hline]
    simp [h200, hsplit, heq]
  rw [hC]
  have hres := writeEntries_fail dec fileNames segs [] i (by rw [heq])
    (by omega) hbefore hfail
  simpa using hres

/-- Claim C7 (amended), instance: a decompressor failing (returning
`nil`) on the second segment of `D1`. -/
theorem convert_nil_decode_fails_inst :
    statusOk D1 = true ∧
    splitAsh0Bundle D1 = SplitResult.ok S1 ∧
    S1.length = 4 ∧
    (1 : Nat) < 4 ∧
    (∀ j, j < 1 →
      (fun s => if s = [65, 83, 72, 48, 2] then none else some s) (S1.getD j []) ≠ none) ∧
    (fun s => if s = [65, 83, 72, 48, 2] then none else some s) (S1.getD 1 []) = none ∧
    ((convertLevelData (fun s => if s = [65, 83, 72, 48, 2] then none else some s)
        "x" D1).outcome = Outcome.error "failed to decompress" ∧
      (convertLevelData (fun s => if s = [65, 83, 72, 48, 2] then none else some s)
        "x" D1).entries.length = 1) :=
  ⟨by decide, by decide, by decide, by decide, by decide, by decide,
    convert_nil_decode_fails (fun s => if s = [65, 83, 72, 48, 2] then none else some s)
      "x" D1 S1 1 (by decide) (by decide) (by decide) (by decide) (by decide) (by decide)⟩

/-- Claim C8: a record whose `WARC-Type` is not `"response"` is skipped
entirely: the run over the remaining records is unchanged, so no split,
decode or repackage is attempted, no output is produced and no error is
raised for it. -/
theorem pipeline_skips_non_response
    (dec : List Nat → Option (List Nat)) (r : WarcRecord) (rs : List WarcRecord)
    (h : r.warcType ≠ "response") :
    runPipeline dec (r :: rs) = runPipeline dec rs := by
  simp [runPipeline, h]

/-- Claim C8, instance: a `"request"` record in front of a `"response"`
record leaves the run unchanged. -/
theorem pipeline_skips_non_response_inst :
    (WarcRecord.mk "request" "x" [] : WarcRecord).warcType ≠ "response" ∧
    runPipeline decId [⟨"request", "x", []⟩, ⟨"response", "b", D1⟩] =
      runPipeline decId [⟨"response", "b", D1⟩] :=
  ⟨by decide, pipeline_skips_non_response decId ⟨"request", "x", []⟩
    [⟨"response", "b", D1⟩] (by decide)⟩

/-- Claim C9: a record whose first line lacks `"200"` makes
`convertLevelData` return a `nil` error with no output file created and
no entries written: the payload is never split, decoded or repackaged. -/
theorem convert_skips_non_200
    (dec : List Nat → Option (List Nat)) (id : String) (data l : List Nat)
    (hline : firstLine data = some l)
    (h200 : has200 l = false) :
    convertLevelData dec id data = ⟨false, [], Outcome.success⟩ := by
  rw [convertLevelData, hline]
  simp [h200]

/-- Claim C9, instance: a `"201"` status line is skipped with success
and no file. -/
theorem convert_skips_non_200_inst :
    firstLine [50, 48, 49, 10, 65] = some [50, 48, 49] ∧
    has200 [50, 48, 49] = false ∧
    convertLevelData decId "x" [50, 48, 49, 10, 65] = ⟨false, [], Outcome.success⟩ :=
  ⟨by decide, by decide,
    convert_skips_non_200 decId "x" [50, 48, 49, 10, 65] [50, 48, 49]
      (by decide) (by decide)⟩

/-- Claim C2 (counterexample): on `"ASH0"+X+"ASH0"+Y+"ASH0"+Z+"ASH0"+W`
with `X=[1], Y=[2], Z=[3], W=[4]` the splitter returns the segments with
their marker bytes included, not `[X, Y, Z, W]`. -/
theorem split_keeps_marker_bytes_cex :
    splitAsh0Bundle (marker ++ [1] ++ marker ++ [2] ++ marker ++ [3] ++ marker ++ [4]) =
      SplitResult.ok [marker ++ [1], marker ++ [2], marker ++ [3], marker ++ [4]] ∧
    splitAsh0Bundle (marker ++ [1] ++ marker ++ [2] ++ marker ++ [3] ++ marker ++ [4]) ≠
      SplitResult.ok [[1], [2], [3], [4]] := by
  decide

/-- Claim C4 (counterexample): a marker-free payload with a passing
status line makes `splitAsh0Bundle` call `os.Exit(1)`: the whole run
terminates and a later healthy record is never processed, refuting
"does not terminate the whole run". -/
theorem split_no_marker_terminates_run_cex :
    splitAsh0Bundle [50, 48, 48, 10, 0, 0] = SplitResult.exit1 ∧
    runPipeline decId [⟨"response", "a", [50, 48, 48, 10, 0, 0]⟩, ⟨"response", "b", D1⟩] =
      ([("a", ⟨true, [], Outcome.procExit⟩)], true) := by
  decide

/-- Claim C10 (counterexample): the buffer `"ASH0A"` contains a marker
occurrence, yet the scan crashes with an out-of-range read at its tail,
so no segments are returned at all. -/
theorem split_marker_then_crash_cex :
    MarkerAt (marker ++ [65]) 0 ∧
    splitAsh0Bundle (marker ++ [65]) = SplitResult.panic := by
  decide

/-- Claim C4 (amended): on a buffer with no marker occurrence the
splitter fails closed, never returning a segment list: it terminates the
whole process, with `os.Exit(1)` (or an index-out-of-range panic when
the buffer tail starts a match that runs past the end). -/
theorem split_no_marker_fails_closed (data : List Nat)
    (h : ∀ i, i < data.length → ¬ MarkerAt data i) :
    splitAsh0Bundle data = SplitResult.exit1 ∨
      splitAsh0Bundle data = SplitResult.panic := by
  have hall : ∀ j, ¬ MarkerAt data j := by
    intro j hm
    have hb := markerAt_bound hm
    exact h j (by omega) hm
  exact splitLoop_no_marker data hall data.length 0 []

/-- Claim C4 (amended), instance: `split_no_marker_fails_closed` on the
marker-free buffer `[0, 0, 0, 0]`. -/
theorem split_no_marker_fails_closed_inst :
    (∀ i, i < ([0, 0, 0, 0] : List Nat).length → ¬ MarkerAt [0, 0, 0, 0] i) ∧
    (splitAsh0Bundle [0, 0, 0, 0] = SplitResult.exit1 ∨
      splitAsh0Bundle [0, 0, 0, 0] = SplitResult.panic) :=
  ⟨by decide, split_no_marker_fails_closed [0, 0, 0, 0] (by decide)⟩

/-- Claim C10 (amended): on a buffer that contains at least one marker
occurrence and on which the scan stays in bounds, the splitter returns
segments that each begin with the 4 marker bytes, and their
concatenation is exactly the suffix of the buffer from the first marker
occurrence on. -/
theorem split_segments_cover (data : List Nat) (i0 : Nat)
    (hm : MarkerAt data i0)
    (hsafe : ∀ i, i < data.length → checkMarker data i ≠ ScanCheck.oob) :
    ∃ p segs, splitAsh0Bundle data = SplitResult.ok segs ∧
      MarkerAt data p ∧ (∀ j, j < p → ¬ MarkerAt data j) ∧
      (∀ seg ∈ segs, seg.take 4 = marker) ∧
      segs.flatten = data.drop p := by
  obtain ⟨P, hPdef⟩ :
      ∃ P, P = (List.range data.length).filter (fun j => decide (MarkerAt data j)) :=
    ⟨_, rfl⟩
  have hmem : ∀ j, MarkerAt data j ↔ j ∈ P := by
    intro j
    rw [hPdef, List.mem_filter, List.mem_range]
    constructor
    · intro h
      have hb := markerAt_bound h
      exact ⟨by omega, by simpa using h⟩
    · intro h
      simpa using h.2
  have hsort : P.Pairwise (· < ·) := by
    rw [hPdef]
    exact (List.pairwise_lt_range _).filter _
  have hchar := split_characterization data P hsafe hmem hsort
  have hi0 : i0 ∈ P := (hmem i0).mp hm
  rcases hP : P with - | ⟨p, ps⟩
  · rw [hP] at hi0; simp at hi0
  · rw [hP] at hchar
    have hpm : MarkerAt data p := (hmem p).mpr (by rw [hP]; simp)
    have hqs : ∀ q ∈ ps, MarkerAt data q :=
      fun q hq => (hmem q).mpr (by rw [hP]; simp [hq])
    refine ⟨p, cuts data p ps, hchar, hpm, ?_, ?_, ?_⟩
    · intro j hj hmj
      have hjP := (hmem j).mp hmj
      rw [hP] at hjP
      rcases List.mem_cons.mp hjP with h | h
      · omega
      · have := (List.pairwise_cons.mp (hP ▸ hsort)).1 j h
        omega
    · exact cuts_marker data ps p hpm hqs (hP ▸ hsort)
    · exact cuts_join data ps p ((hP ▸ hsort).imp (fun h => le_of_lt h))

/-- Claim C2 (amended): on `"ASH0"+X+"ASH0"+Y+"ASH0"+Z+"ASH0"+W` with
`X, Y, Z, W` non-empty and marker-free, and with the buffer not ending
in a partial-marker fragment (the scan stays in bounds), the splitter
returns exactly four segments — but each segment keeps its leading
4-byte marker: the result is
`["ASH0"+X, "ASH0"+Y, "ASH0"+Z, "ASH0"+W]`, not `[X, Y, Z, W]`. -/
theorem split_four_blocks (X Y Z W : List Nat)
    (hX : X ≠ []) (hY : Y ≠ []) (hZ : Z ≠ []) (hW : W ≠ [])
    (hmX : ∀ i, i < X.length → ¬ MarkerAt X i)
    (hmY : ∀ i, i < Y.length → ¬ MarkerAt Y i)
    (hmZ : ∀ i, i < Z.length → ¬ MarkerAt Z i)
    (hmW : ∀ i, i < W.length → ¬ MarkerAt W i)
    (hsafe : ∀ i, i < (marker ++ X ++ marker ++ Y ++ marker ++ Z ++ marker ++ W).length →
      checkMarker (marker ++ X ++ marker ++ Y ++ marker ++ Z ++ marker ++ W) i ≠
        ScanCheck.oob) :
    splitAsh0Bundle (marker ++ X ++ marker ++ Y ++ marker ++ Z ++ marker ++ W) =
      SplitResult.ok [marker ++ X, marker ++ Y, marker ++ Z, marker ++ W] := by
  obtain ⟨R3, hR3⟩ : ∃ R, R = marker ++ W := ⟨_, rfl⟩
  obtain ⟨R2, hR2⟩ : ∃ R, R = marker ++ (Z ++ R3) := ⟨_, rfl⟩
  obtain ⟨R1, hR1⟩ : ∃ R, R = marker ++ (Y ++ R2) := ⟨_, rfl⟩
  obtain ⟨D, hD⟩ : ∃ E, E = marker ++ (X ++ R1) := ⟨_, rfl⟩
  have hDfull : marker ++ X ++ marker ++ Y ++ marker ++ Z ++ marker ++ W = D := by
    rw [hD, hR1, hR2, hR3]
    simp [List.append_assoc]
  rw [hDfull] at hsafe ⊢
  have hA1 : D = (marker ++ X) ++ R1 := by
    rw [hD]; simp [List.append_assoc]
  have hA2 : D = ((marker ++ X) ++ (marker ++ Y)) ++ R2 := by
    rw [hD, hR1]; simp [List.append_assoc]
  have hA3 : D = (((marker ++ X) ++ (marker ++ Y)) ++ (marker ++ Z)) ++ R3 := by
    rw [hD, hR1, hR2]; simp [List.append_assoc]
  have hiff : ∀ j, MarkerAt D j ↔
      j ∈ [0, 4 + X.length, 8 + X.length + Y.length,
        12 + X.length + Y.length + Z.length] := by
    intro j
    constructor
    · intro hM
      rw [hD] at hM
      rcases block_step X R1 j (noMarkerAll hmX)
          (Or.inl (by rw [hR1]; simp [marker])) hM with h0 | ⟨hg1, hM1⟩
      · simp [h0]
      · rw [hR1] at hM1
        rcases block_step Y R2 _ (noMarkerAll hmY)
            (Or.inl (by rw [hR2]; simp [marker])) hM1 with h0 | ⟨hg2, hM2⟩
        · have hj : j = 4 + X.length := by omega
          simp [hj]
        · rw [hR2] at hM2
          rcases block_step Z R3 _ (noMarkerAll hmZ)
              (Or.inl (by rw [hR3]; simp [marker])) hM2 with h0 | ⟨hg3, hM3⟩
          · have hj : j = 8 + X.length + Y.length := by omega
            simp [hj]
          · rw [hR3] at hM3
            have hM3b : MarkerAt (marker ++ (W ++ []))
                (j - (4 + X.length) - (4 + Y.length) - (4 + Z.length)) := by
              simpa using hM3
            rcases block_step W [] _ (noMarkerAll hmW) (Or.inr rfl) hM3b with
              h0 | ⟨hg4, hM4⟩
            · have hj : j = 12 + X.length + Y.length + Z.length := by omega
              simp [hj]
            · exact absurd hM4.1 (by simp)
    · intro hj
      simp only [List.mem_cons, List.not_mem_nil, or_false] at hj
      rcases hj with h | h | h | h
      · subst h; rw [hD]; exact markerAt_front _
      · subst h
        rw [hA1, hR1]
        exact markerAt_block_start (marker ++ X) (Y ++ R2) _
          (by simp [marker] <;> omega)
      · subst h
        rw [hA2, hR2]
        exact markerAt_block_start ((marker ++ X) ++ (marker ++ Y)) (Z ++ R3) _
          (by simp [marker] <;> omega)
      · subst h
        rw [hA3, hR3]
        exact markerAt_block_start (((marker ++ X) ++ (marker ++ Y)) ++ (marker ++ Z)) W _
          (by simp [marker] <;> omega)
  have hsort : ([0, 4 + X.length, 8 + X.length + Y.length,
      12 + X.length + Y.length + Z.length] : List Nat).Pairwise (· < ·) := by
    simp [List.pairwise_cons] <;> omega
  have hchar := split_characterization D
    [0, 4 + X.length, 8 + X.length + Y.length, 12 + X.length + Y.length + Z.length]
    hsafe hiff hsort
  rw [hchar]
  show SplitResult.ok (cuts D 0 [4 + X.length, 8 + X.length + Y.length,
    12 + X.length + Y.length + Z.length]) = _
  have hd1 : D.drop (4 + X.length) = R1 := by
    rw [hA1]
    exact List.drop_left' (by simp [marker] <;> omega)
  have hd2 : D.drop (8 + X.length + Y.length) = R2 := by
    rw [hA2]
    exact List.drop_left' (by simp [marker] <;> omega)
  have hd3 : D.drop (12 + X.length + Y.length + Z.length) = R3 := by
    rw [hA3]
    exact List.drop_left' (by simp [marker] <;> omega)
  have c1 : (D.drop 0).take (4 + X.length - 0) = marker ++ X := by
    rw [List.drop_zero, show 4 + X.length - 0 = 4 + X.length by omega, hA1]
    exact List.take_left' (by simp [marker] <;> omega)
  have c2 : (D.drop (4 + X.length)).take
      (8 + X.length + Y.length - (4 + X.length)) = marker ++ Y := by
    rw [hd1, show 8 + X.length + Y.length - (4 + X.length) = 4 + Y.length by omega,
      hR1, show marker ++ (Y ++ R2) = (marker ++ Y) ++ R2 by simp [List.append_assoc]]
    exact List.take_left' (by simp [marker] <;> omega)
  have c3 : (D.drop (8 + X.length + Y.length)).take
      (12 + X.length + Y.length + Z.length - (8 + X.length + Y.length)) =
        marker ++ Z := by
    rw [hd2, show 12 + X.length + Y.length + Z.length - (8 + X.length + Y.length) =
      4 + Z.length by omega, hR2,
      show marker ++ (Z ++ R3) = (marker ++ Z) ++ R3 by simp [List.append_assoc]]
    exact List.take_left' (by simp [marker] <;> omega)
  simp only [cuts]
  rw [c1, c2, c3, hd3, hR3]

/-- Claim C2 (amended), instance: `split_four_blocks` on
`X=[1], Y=[2], Z=[3], W=[4]`. -/
theorem split_four_blocks_inst :
    (([1] : List Nat) ≠ [] ∧ ([2] : List Nat) ≠ [] ∧ ([3] : List Nat) ≠ [] ∧
      ([4] : List Nat) ≠ []) ∧
    ((∀ i, i < ([1] : List Nat).length → ¬ MarkerAt [1] i) ∧
      (∀ i, i < ([2] : List Nat).length → ¬ MarkerAt [2] i) ∧
      (∀ i, i < ([3] : List Nat).length → ¬ MarkerAt [3] i) ∧
      (∀ i, i < ([4] : List Nat).length → ¬ MarkerAt [4] i)) ∧
    (∀ i, i < (marker ++ [1] ++ marker ++ [2] ++ marker ++ [3] ++ marker ++ [4]).length →
      checkMarker (marker ++ [1] ++ marker ++ [2] ++ marker ++ [3] ++ marker ++ [4]) i ≠
        ScanCheck.oob) ∧
    splitAsh0Bundle (marker ++ [1] ++ marker ++ [2] ++ marker ++ [3] ++ marker ++ [4]) =
      SplitResult.ok [marker ++ [1], marker ++ [2], marker ++ [3], marker ++ [4]] :=
  ⟨⟨by decide, by decide, by decide, by decide⟩,
    ⟨by decide, by decide, by decide, by decide⟩, by decide,
    split_four_blocks [1] [2] [3] [4] (by decide) (by decide) (by decide) (by decide)
      (by decide) (by decide) (by decide) (by decide) (by decide)⟩

/-- Claim C10 (amended), instance: `split_segments_cover` on the buffer
that is exactly one marker. -/
theorem split_segments_cover_inst :
    MarkerAt marker 0 ∧
    (∀ i, i < marker.length → checkMarker marker i ≠ ScanCheck.oob) ∧
    (∃ p segs, splitAsh0Bundle marker = SplitResult.ok segs ∧
      MarkerAt marker p ∧ (∀ j, j < p → ¬ MarkerAt marker j) ∧
      (∀ seg ∈ segs, seg.take 4 = marker) ∧
      segs.flatten = marker.drop p) :=
  ⟨by decide, by decide, split_segments_cover marker 0 (by decide) (by decide)⟩

end MM1Unarchive
